import Mathlib

/-
Verification of the client-side analysis-session logic of the Checkstyle
Analyzer web client.

The embedding below translates the session core of the repository:
  * `services/api.ts` — `startAnalysis`, `checkStatus`, `pollStatus`,
    `fetchResults`: network calls are modelled by passing the backend's
    response (or failure) as an explicit oracle argument; a thrown
    `Error` becomes `Except.error` carrying the error message string.
  * `App.tsx` — `handleAnalysisStart`, `handleCodeAnalysis`: the React
    `useState` cells (`logs`, `results`, `isAnalyzing`,
    `currentRequestId`, `analysisStatus`) become fields of `AppState`;
    each handler is a state transformer that also returns the trace of
    adapter calls it issued and whether it ran to completion or is
    still suspended awaiting further poll responses.
  * `services/socket.ts` — `connectWebSocket`, `disconnectWebSocket`
    and the subscription callback: the module-level `stompClient`
    singleton becomes `SocketState.current`, an index into the list of
    clients created so far; message delivery on a client's topic is the
    explicit event `deliver`.
-/

namespace Checkstyle

/-- Severity level of a log entry (socket.ts `LogEntry.level`). -/
inductive Level where
  | IGNORE
  | INFO
  | WARNING
  | ERROR
deriving DecidableEq, Repr

/-- A log entry shown in the terminal (socket.ts `LogEntry`). -/
structure LogEntry where
  level : Level
  message : String
deriving DecidableEq, Repr

/-- The status union of `AnalysisStatus.status` in services/api.ts. -/
inductive Status where
  | PENDING
  | CLONING
  | ANALYZING
  | COMPLETED
  | FAILED
deriving DecidableEq, Repr

/-- The body of a successful `GET /api/status/...` response
(services/api.ts `AnalysisStatus`). -/
structure AnalysisStatus where
  id : Nat
  status : Status
  errorMessage : Option String
  createdAt : String
deriving DecidableEq, Repr

/-- A single Checkstyle violation (services/api.ts `AnalysisResult`). -/
structure AnalysisResult where
  id : Nat
  filePath : String
  lineNumber : Nat
  severity : String
  message : String
deriving DecidableEq, Repr

/-- JavaScript's `m || d` fallback on a nullable string: `null` and the
empty string are falsy, any other string is returned as is.  Used for
`status.errorMessage || 'Аналіз завершився з помилкою'`. -/
def jsStringOr (m : Option String) (d : String) : String :=
  match m with
  | none => d
  | some s => if s = "" then d else s

/-- Backend response to one `GET /api/status/...` call: either an ok
response carrying an `AnalysisStatus` body, or a non-ok HTTP response. -/
inductive StatusResponse where
  | ok (s : AnalysisStatus)
  | httpError
deriving DecidableEq, Repr

/-- Embedding of `checkStatus` (services/api.ts): on a non-ok response it
throws `'Не вдалося отримати статус аналізу.'`, otherwise it returns the
decoded body.  The network call is replaced by the explicit response. -/
def checkStatus : StatusResponse → Except String AnalysisStatus
  | .httpError => .error "Не вдалося отримати статус аналізу."
  | .ok s => .ok s

/-- Outcome of running `pollStatus` against a finite prefix of backend
responses: either the loop returned or threw (`done`), or it consumed the
whole prefix without reaching a terminal status and is still polling. -/
inductive PollOutcome where
  | done (r : Except String AnalysisStatus)
  | polling
deriving Repr

/-- Embedding of `pollStatus` (services/api.ts).  The argument is the
sequence of backend responses to the successive `checkStatus` calls.  The
first component collects the arguments of the successive `onStatusUpdate`
callback invocations, in order; the second is the loop's outcome:
`COMPLETED` returns the status, `FAILED` throws `errorMessage ||
'Аналіз завершився з помилкою'`, a `checkStatus` failure propagates, and
any other status continues the loop. -/
def pollStatus : List StatusResponse → List AnalysisStatus × PollOutcome
  | [] => ([], .polling)
  | r :: rs =>
    match checkStatus r with
    | .error e => ([], .done (.error e))
    | .ok s =>
      if s.status = .COMPLETED then
        ([s], .done (.ok s))
      else if s.status = .FAILED then
        ([s], .done (.error (jsStringOr s.errorMessage "Аналіз завершився з помилкою")))
      else
        let p := pollStatus rs
        (s :: p.1, p.2)

/-- A status is non-terminal when the loop keeps polling on it. -/
def Status.nonTerminal (s : Status) : Prop :=
  s ≠ Status.COMPLETED ∧ s ≠ Status.FAILED

/-- Running `pollStatus` on non-terminal responses followed by `rest`
consumes the whole non-terminal prefix, invoking the callback once per
response, and then behaves as on `rest`. -/
theorem pollStatus_nonterminal_consume (pre : List AnalysisStatus)
    (hpre : ∀ s ∈ pre, s.status.nonTerminal) (rest : List StatusResponse) :
    pollStatus (pre.map StatusResponse.ok ++ rest)
      = (pre ++ (pollStatus rest).1, (pollStatus rest).2) := by
  induction pre with
  | nil => simp
  | cons s pre ih =>
    have hs := hpre s (by simp)
    have hrec := ih (fun x hx => hpre x (by simp [hx]))
    simp only [List.map_cons, List.cons_append, pollStatus, checkStatus,
      if_neg hs.1, if_neg hs.2, List.append_eq, hrec]

/-- Evaluating `jsStringOr` on a present, non-empty message. -/
theorem jsStringOr_some (m d : String) (hm : m ≠ "") :
    jsStringOr (some m) d = m := by
  simp [jsStringOr, hm]

/-- C1: for every sequence of status responses, `pollStatus` keeps polling
while the status is PENDING, CLONING or ANALYZING (a finite all-non-terminal
prefix leaves the loop still polling); it stops and returns the status at
the first COMPLETED response, regardless of any later responses; and at the
first FAILED response it stops and raises an error whose message is the
backend's `errorMessage`, or the generic failure message
`'Аналіз завершився з помилкою'` when the backend supplies none. -/
theorem c1_pollStatus_terminal_behaviour (pre : List AnalysisStatus)
    (hpre : ∀ s ∈ pre, s.status.nonTerminal) (t : AnalysisStatus)
    (rest : List StatusResponse) :
    ((pollStatus (pre.map StatusResponse.ok)).2 = PollOutcome.polling)
    ∧ (t.status = Status.COMPLETED →
        (pollStatus (pre.map StatusResponse.ok ++ StatusResponse.ok t :: rest)).2
          = PollOutcome.done (Except.ok t))
    ∧ (t.status = Status.FAILED →
        ∀ m, t.errorMessage = some m → m ≠ "" →
        (pollStatus (pre.map StatusResponse.ok ++ StatusResponse.ok t :: rest)).2
          = PollOutcome.done (Except.error m))
    ∧ (t.status = Status.FAILED → t.errorMessage = none →
        (pollStatus (pre.map StatusResponse.ok ++ StatusResponse.ok t :: rest)).2
          = PollOutcome.done (Except.error "Аналіз завершився з помилкою")) := by
  refine ⟨?_, ?_, ?_, ?_⟩
  · have h := pollStatus_nonterminal_consume pre hpre []
    simp only [List.append_nil] at h
    simp [h, pollStatus]
  · intro ht
    rw [pollStatus_nonterminal_consume pre hpre]
    simp [pollStatus, checkStatus, ht]
  · intro ht m hm hm'
    rw [pollStatus_nonterminal_consume pre hpre]
    have : t.status ≠ Status.COMPLETED := by simp [ht]
    simp [pollStatus, checkStatus, this, ht, hm, jsStringOr_some m _ hm']
  · intro ht hm
    rw [pollStatus_nonterminal_consume pre hpre]
    have : t.status ≠ Status.COMPLETED := by simp [ht]
    simp [pollStatus, checkStatus, this, ht, hm, jsStringOr]

/-- C1 witness: a PENDING response followed by a COMPLETED response makes
the loop stop and return the COMPLETED status. -/
theorem c1_pollStatus_witness :
    (pollStatus [StatusResponse.ok ⟨1, Status.PENDING, none, "t"⟩,
        StatusResponse.ok ⟨1, Status.COMPLETED, none, "t"⟩]).2
      = PollOutcome.done (Except.ok ⟨1, Status.COMPLETED, none, "t"⟩) :=
  (c1_pollStatus_terminal_behaviour [⟨1, Status.PENDING, none, "t"⟩]
    (by intro s hs; simp only [List.mem_singleton] at hs; subst hs
        exact ⟨by decide, by decide⟩) ⟨1, Status.COMPLETED, none, "t"⟩ []).2.1 rfl

/-- C9: `pollStatus` invokes `onStatusUpdate` exactly once per consumed
status response, including the terminal one: on an all-non-terminal prefix
the callback sequence is exactly that prefix, and when the first terminal
response follows such a prefix the callback sequence is the prefix plus the
terminal status; in particular a FAILED status is delivered to the callback
even though the call itself ends in an error. -/
theorem c9_pollStatus_callback_once_per_response (pre : List AnalysisStatus)
    (hpre : ∀ s ∈ pre, s.status.nonTerminal) (t : AnalysisStatus)
    (rest : List StatusResponse) :
    ((pollStatus (pre.map StatusResponse.ok)).1 = pre)
    ∧ (t.status = Status.COMPLETED ∨ t.status = Status.FAILED →
        (pollStatus (pre.map StatusResponse.ok ++ StatusResponse.ok t :: rest)).1
          = pre ++ [t])
    ∧ (t.status = Status.FAILED →
        ∃ e, (pollStatus (pre.map StatusResponse.ok ++ StatusResponse.ok t :: rest)).2
          = PollOutcome.done (Except.error e)) := by
  refine ⟨?_, ?_, ?_⟩
  · have h := pollStatus_nonterminal_consume pre hpre []
    simp only [List.append_nil] at h
    simp [h, pollStatus]
  · intro ht
    rw [pollStatus_nonterminal_consume pre hpre]
    rcases ht with ht | ht
    · simp [pollStatus, checkStatus, ht]
    · have : t.status ≠ Status.COMPLETED := by simp [ht]
      simp [pollStatus, checkStatus, this, ht]
  · intro ht
    rw [pollStatus_nonterminal_consume pre hpre]
    have : t.status ≠ Status.COMPLETED := by simp [ht]
    exact ⟨jsStringOr t.errorMessage "Аналіз завершився з помилкою",
      by simp [pollStatus, checkStatus, this, ht]⟩

/-- C9 witness: with responses CLONING then FAILED, the callback sees both
statuses, the FAILED one included, and the loop ends in an error. -/
theorem c9_pollStatus_witness :
    (pollStatus [StatusResponse.ok ⟨1, Status.CLONING, none, "t"⟩,
        StatusResponse.ok ⟨1, Status.FAILED, some "boom", "t"⟩]).1
      = [⟨1, Status.CLONING, none, "t"⟩, ⟨1, Status.FAILED, some "boom", "t"⟩] :=
  (c9_pollStatus_callback_once_per_response [⟨1, Status.CLONING, none, "t"⟩]
    (by intro s hs; simp only [List.mem_singleton] at hs; subst hs
        exact ⟨by decide, by decide⟩) ⟨1, Status.FAILED, some "boom", "t"⟩ []).2.1 (Or.inr rfl)

/-- The React state cells of `App` (App.tsx) that the analysis workflow
reads and writes. -/
structure AppState where
  logs : List LogEntry
  results : List AnalysisResult
  isAnalyzing : Bool
  currentRequestId : Option String
  analysisStatus : Option Status
deriving DecidableEq, Repr

/-- One STOMP client created by `connectWebSocket` (socket.ts): the request
identifier whose log topic it subscribes to, and whether it is still
active (not yet deactivated). -/
structure ChannelClient where
  requestId : String
  active : Bool
deriving DecidableEq, Repr

/-- The module-level state of socket.ts: every client created so far, in
creation order, and the index the `stompClient` singleton points at
(`none` models `stompClient = null`). -/
structure SocketState where
  clients : List ChannelClient
  current : Option Nat
deriving DecidableEq, Repr

/-- The whole client: the App component state plus the socket module
state. -/
structure World where
  app : AppState
  sock : SocketState
deriving DecidableEq, Repr

/-- Deactivate the client at index `j`, leaving every other client as it
is (the effect of `deactivate()` on one client object). -/
def deactivateAt : List ChannelClient → Nat → List ChannelClient
  | [], _ => []
  | c :: cs, 0 => ⟨c.requestId, false⟩ :: cs
  | c :: cs, j + 1 => c :: deactivateAt cs j

/-- Embedding of `connectWebSocket` (socket.ts): a new client is created
and becomes the singleton.  The previous singleton is neither deactivated
nor cleared — it is only overwritten.  Activation, the asynchronous
`onConnect` and the topic subscription are merged into this one step; a
client's subscription being live is modelled by its `active` flag. -/
def connectWebSocket (ss : SocketState) (requestId : String) : SocketState :=
  { clients := ss.clients ++ [⟨requestId, true⟩],
    current := some ss.clients.length }

/-- Embedding of `disconnectWebSocket` (socket.ts): deactivate the client
the singleton points at, then set the singleton to `null`. -/
def disconnectWebSocket (ss : SocketState) : SocketState :=
  match ss.current with
  | some j => { clients := deactivateAt ss.clients j, current := none }
  | none => { ss with current := none }

/-- Append one entry to the log sequence — the effect of
`setLogs(prev => [...prev, entry])`. -/
def appendLog (st : AppState) (e : LogEntry) : AppState :=
  { st with logs := st.logs ++ [e] }

/-- Embedding of `getStatusMessage` (App.tsx): the user-facing line for
each status value. -/
def getStatusMessage : Status → String
  | .PENDING => "⏳ Очікування початку аналізу..."
  | .CLONING => "📥 Клонування репозиторію..."
  | .ANALYZING => "🔍 Аналіз Java файлів..."
  | .COMPLETED => "✅ Аналіз завершено"
  | .FAILED => "❌ Помилка аналізу"

/-- Embedding of the `setLogs` updater inside the `pollStatus` callback of
`handleAnalysisStart` (App.tsx): compare the candidate status line against
the last entry of the log sequence only, and append it as an INFO entry
unless that last entry has the same message. -/
def statusLogUpdate (prev : List LogEntry) (statusMsg : String) : List LogEntry :=
  match prev.getLast? with
  | some lastLog =>
      if lastLog.message = statusMsg then prev
      else prev ++ [⟨.INFO, statusMsg⟩]
  | none => prev ++ [⟨.INFO, statusMsg⟩]

/-- Embedding of the `onStatusUpdate` callback `handleAnalysisStart` passes
to `pollStatus`: record the status and append the (de-duplicated) status
line. -/
def onPollStatusUpdate (st : AppState) (s : AnalysisStatus) : AppState :=
  { st with analysisStatus := some s.status,
            logs := statusLogUpdate st.logs (getStatusMessage s.status) }

/-- One adapter call issued by the workflow, in issue order. -/
inductive TraceEvent where
  | submitCall
  | statusCall
  | statusObserved (s : AnalysisStatus)
  | channelConnect (requestId : String)
  | resultsCall
  | analyzeCodeCall
deriving DecidableEq, Repr

/-- Number of occurrences of one event in a trace. -/
def countEvent (ev : TraceEvent) (tr : List TraceEvent) : Nat :=
  (tr.filter fun x => x = ev).length

/-- `pollStatus` re-run against the App state: the callback argument is the
real one from `handleAnalysisStart`, so each consumed response updates the
status cell and the log.  Returns the updated state, the trace (one
`statusCall` per `checkStatus` call, one `statusObserved` per callback
invocation) and the loop's outcome (`none` while still polling). -/
def pollStatusApp (st : AppState) :
    List StatusResponse → AppState × List TraceEvent × Option (Except String AnalysisStatus)
  | [] => (st, [], none)
  | r :: rs =>
    match checkStatus r with
    | .error e => (st, [.statusCall], some (.error e))
    | .ok s =>
      let st1 := onPollStatusUpdate st s
      if s.status = .COMPLETED then
        (st1, [.statusCall, .statusObserved s], some (.ok s))
      else if s.status = .FAILED then
        (st1, [.statusCall, .statusObserved s],
          some (.error (jsStringOr s.errorMessage "Аналіз завершився з помилкою")))
      else
        let p := pollStatusApp st1 rs
        (p.1, .statusCall :: .statusObserved s :: p.2.1, p.2.2)

/-- Backend response to the `POST /api/analyze` submit call: an ok response
whose JSON body yields the request identifier, or a non-ok response with
its status code, status text and body text. -/
inductive SubmitResponse where
  | ok (requestId : String)
  | httpError (code : Nat) (statusText : String) (body : String)
deriving DecidableEq, Repr

/-- Embedding of `startAnalysis` (services/api.ts): a non-ok response
throws `'Помилка серверу: ...'` carrying the status code, status text and
response body; an ok response returns the request identifier. -/
def startAnalysis : SubmitResponse → Except String String
  | .ok requestId => .ok requestId
  | .httpError code statusText body =>
      .error ("Помилка серверу: " ++ toString code ++ " " ++ statusText
        ++ ". " ++ body)

/-- Backend response to the `GET /api/results/...` call. -/
inductive ResultsResponse where
  | ok (rs : List AnalysisResult)
  | httpError
deriving DecidableEq, Repr

/-- Embedding of `fetchResults` (services/api.ts). -/
def fetchResults : ResultsResponse → Except String (List AnalysisResult)
  | .ok rs => .ok rs
  | .httpError => .error "Не вдалося завантажити результати."

/-- The backend's responses to the adapter calls one run of
`handleAnalysisStart` can issue. -/
structure UrlOracle where
  submitResp : SubmitResponse
  statusResps : List StatusResponse
  resultsResp : ResultsResponse
deriving DecidableEq, Repr

/-- Whether a handler run reached its end (`finally` executed) or is still
suspended awaiting further poll responses beyond the finite oracle. -/
inductive RunStatus where
  | finished
  | suspended
deriving DecidableEq, Repr

/-- Embedding of `handleAnalysisStart` (App.tsx).  The run is atomic up to
the explicit oracle; it returns the new world, the trace of adapter calls,
and whether the run finished.  The repository URL argument only flows into
the network request, which the oracle replaces, so it is omitted here.  The `catch` block appends an ERROR log line
`'Помилка: ...'` and sets the status to FAILED; `finally` resets
`isAnalyzing`. -/
def handleAnalysisStart (w : World) (o : UrlOracle) :
    World × List TraceEvent × RunStatus :=
  if w.app.isAnalyzing then (w, [], .finished)
  else
    let app0 : AppState :=
      { w.app with isAnalyzing := true, logs := [], results := [],
                   currentRequestId := none, analysisStatus := none }
    let app1 := appendLog app0 ⟨.INFO, "Надсилаю запит на аналіз..."⟩
    match startAnalysis o.submitResp with
    | .error e =>
        let app2 := appendLog app1 ⟨.ERROR, "Помилка: " ++ e⟩
        let app3 : AppState :=
          { app2 with analysisStatus := some .FAILED, isAnalyzing := false }
        (⟨app3, w.sock⟩, [.submitCall], .finished)
    | .ok requestId =>
        let app2 : AppState := { app1 with currentRequestId := some requestId }
        let app3 := appendLog app2
          ⟨.INFO, "Запит створено. ID: " ++ requestId ++ ". Підключаюсь до логів..."⟩
        let sock1 := connectWebSocket w.sock requestId
        let app4 := appendLog app3 ⟨.INFO, "WebSocket з'єднано. Очікую логи..."⟩
        let app5 := appendLog app4 ⟨.INFO, "Перевіряю статус аналізу..."⟩
        let p := pollStatusApp app5 o.statusResps
        match p.2.2 with
        | none =>
            (⟨p.1, sock1⟩,
              .submitCall :: .channelConnect requestId :: p.2.1, .suspended)
        | some (.error e) =>
            let app6 := appendLog p.1 ⟨.ERROR, "Помилка: " ++ e⟩
            let app7 : AppState :=
              { app6 with analysisStatus := some .FAILED, isAnalyzing := false }
            (⟨app7, sock1⟩,
              .submitCall :: .channelConnect requestId :: p.2.1, .finished)
        | some (.ok _) =>
            let app6 := appendLog p.1 ⟨.INFO, "Завантажую результати..."⟩
            match fetchResults o.resultsResp with
            | .error e =>
                let app7 := appendLog app6 ⟨.ERROR, "Помилка: " ++ e⟩
                let app8 : AppState :=
                  { app7 with analysisStatus := some .FAILED, isAnalyzing := false }
                (⟨app8, sock1⟩,
                  .submitCall :: .channelConnect requestId
                    :: (p.2.1 ++ [.resultsCall]), .finished)
            | .ok rs =>
                let app7 : AppState := { app6 with results := rs }
                let app8 := appendLog app7
                  ⟨.INFO, "Знайдено " ++ toString rs.length ++ " порушень"⟩
                let app9 : AppState := { app8 with isAnalyzing := false }
                (⟨app9, sock1⟩,
                  .submitCall :: .channelConnect requestId
                    :: (p.2.1 ++ [.resultsCall]), .finished)

/-- Whether the subscription callback in `connectWebSocket` (socket.ts)
treats a decoded message as an implicit completion signal: its text starts
with the completion marker sentence, or its level is ERROR. -/
def channelTerminal (e : LogEntry) : Bool :=
  String.startsWith e.message ("Аналіз завершено") || e.level = Level.ERROR

/-- Whether the client at index `i` exists and is still active. -/
def clientActive (ss : SocketState) (i : Nat) : Bool :=
  match ss.clients.get? i with
  | some c => c.active
  | none => false

/-- Side effects observable from one run of the subscription callback. -/
inductive SignalEvent where
  | completionSignal
  | closeCall
deriving DecidableEq, Repr

/-- Delivery of one message on the log topic of the client at index `i`:
the subscription callback of `connectWebSocket` (socket.ts) with the
callbacks `handleAnalysisStart` (App.tsx) passes in.  `onLogReceived`
appends the entry to the log; if the message is an implicit completion
signal the callback invokes `onAnalysisComplete` — which appends the
`'З'єднання WebSocket закрито.'` INFO line — and then `disconnectWebSocket`.
A deactivated or non-existent client delivers nothing. -/
def deliver (w : World) (i : Nat) (e : LogEntry) : World × List SignalEvent :=
  if clientActive w.sock i then
    let app1 := appendLog w.app e
    if channelTerminal e then
      let app2 := appendLog app1 ⟨.INFO, "З'єднання WebSocket закрито."⟩
      (⟨app2, disconnectWebSocket w.sock⟩, [.completionSignal, .closeCall])
    else
      (⟨app1, w.sock⟩, [])
  else (w, [])

/-- Deliveries of a sequence of messages on the topic of client `i`, with
the emitted signals concatenated in order. -/
def deliverAll (w : World) (i : Nat) : List LogEntry → World × List SignalEvent
  | [] => (w, [])
  | e :: es =>
    let p := deliver w i e
    let q := deliverAll p.1 i es
    (q.1, p.2 ++ q.2)

/-- One compilation diagnostic of the inline-code analysis response. -/
structure CompilationError where
  lineNumber : Nat
  message : String
deriving DecidableEq, Repr

/-- One violation of the inline-code analysis response, before the caller
assigns ids. -/
structure CodeViolation where
  filePath : String
  lineNumber : Nat
  severity : String
  message : String
deriving DecidableEq, Repr

/-- Modelled from the spec: the synchronous result bundle returned by
`analyzeCode` — the inline-code path of `submit` — whose definition is not
among the provided sources (only its caller `handleCodeAnalysis` in
App.tsx is).  Per the spec it carries the violations, optional compilation
diagnostics and a numeric quality score; the `success`/`errorMessage` pair
and the violation count are taken from the caller's uses of the bundle. -/
structure CodeAnalysisResponse where
  success : Bool
  errorMessage : String
  compilationSuccess : Option Bool
  compilationErrors : List CompilationError
  violations : List CodeViolation
  qualityScore : Nat
  violationCount : Nat
deriving DecidableEq, Repr

/-- The ERROR log entry `handleCodeAnalysis` (App.tsx) appends for one
compilation diagnostic. -/
def compErrEntry (err : CompilationError) : LogEntry :=
  ⟨.ERROR, "Рядок " ++ toString err.lineNumber ++ ": " ++ err.message⟩

/-- Conversion of the bundle's violations into `AnalysisResult`s as done by
`handleCodeAnalysis` (App.tsx): `violations.map((v, index) => ({id: index,
...}))`, with `n` the index of the first element. -/
def assignIdsFrom (n : Nat) : List CodeViolation → List AnalysisResult
  | [] => []
  | v :: vs => ⟨n, v.filePath, v.lineNumber, v.severity, v.message⟩ :: assignIdsFrom (n + 1) vs

/-- The emoji chosen for the quality-score log line (App.tsx). -/
def scoreEmoji (q : Nat) : String :=
  if q ≥ 80 then "🌟" else if q ≥ 60 then "👍" else "⚠️"

/-- Embedding of `handleCodeAnalysis` (App.tsx).  The oracle is the result
of the `analyzeCode` call (`Except.error` models the call throwing).  Note
that unlike `handleAnalysisStart` it does not touch `currentRequestId`,
issues no submit, status or results call, and opens no channel. -/
def handleCodeAnalysis (w : World) (fileName : Option String)
    (o : Except String CodeAnalysisResponse) :
    World × List TraceEvent × RunStatus :=
  if w.app.isAnalyzing then (w, [], .finished)
  else
    let app0 : AppState :=
      { w.app with isAnalyzing := true, logs := [], results := [],
                   analysisStatus := none }
    let app1 := appendLog app0 ⟨.INFO, "Починаю аналіз коду..."⟩
    let app2 :=
      match fileName with
      | some fn => appendLog app1 ⟨.INFO, "Файл: " ++ fn⟩
      | none => app1
    let app3 := appendLog app2 ⟨.INFO, "Перевірка компіляції..."⟩
    match o with
    | .error e =>
        let app4 := appendLog app3 ⟨.ERROR, "Помилка: " ++ e⟩
        let app5 : AppState :=
          { app4 with analysisStatus := some .FAILED, isAnalyzing := false }
        (⟨app5, w.sock⟩, [.analyzeCodeCall], .finished)
    | .ok result =>
        if result.success = false then
          let app4 := appendLog app3 ⟨.ERROR, "Помилка: " ++ result.errorMessage⟩
          let app5 : AppState :=
            { app4 with analysisStatus := some .FAILED, isAnalyzing := false }
          (⟨app5, w.sock⟩, [.analyzeCodeCall], .finished)
        else
          let app4 :=
            match result.compilationSuccess with
            | none => app3
            | some true => appendLog app3 ⟨.INFO, "✅ Код успішно компілюється"⟩
            | some false =>
                let b := appendLog app3 ⟨.WARNING, "❌ Код не компілюється"⟩
                result.compilationErrors.foldl
                  (fun acc err => appendLog acc (compErrEntry err)) b
          let app5 := appendLog app4 ⟨.INFO, "Запуск аналізу Checkstyle..."⟩
          let app6 : AppState := { app5 with results := assignIdsFrom 0 result.violations }
          let app7 := appendLog app6
            ⟨.INFO, scoreEmoji result.qualityScore ++ " Оцінка якості коду: "
              ++ toString result.qualityScore ++ "/100"⟩
          let app8 := appendLog app7
            ⟨.INFO, "Аналіз завершено. Знайдено " ++ toString result.violationCount
              ++ " порушень."⟩
          let app9 : AppState :=
            { app8 with analysisStatus := some .COMPLETED, isAnalyzing := false }
          (⟨app9, w.sock⟩, [.analyzeCodeCall], .finished)

/-- The trace produced by consuming a list of ok, non-terminal status
responses: one `statusCall` and one `statusObserved` per response. -/
def pollTrace : List AnalysisStatus → List TraceEvent
  | [] => []
  | s :: l => .statusCall :: .statusObserved s :: pollTrace l

theorem countEvent_nil (ev : TraceEvent) : countEvent ev [] = 0 := rfl

theorem countEvent_cons (ev x : TraceEvent) (l : List TraceEvent) :
    countEvent ev (x :: l) = (if x = ev then 1 else 0) + countEvent ev l := by
  by_cases h : x = ev <;>
    simp [countEvent, List.filter_cons, h, Nat.add_comm]

theorem countEvent_append (ev : TraceEvent) (l₁ l₂ : List TraceEvent) :
    countEvent ev (l₁ ++ l₂) = countEvent ev l₁ + countEvent ev l₂ := by
  simp [countEvent, List.filter_append]

theorem countEvent_pollTrace_resultsCall (pre : List AnalysisStatus) :
    countEvent .resultsCall (pollTrace pre) = 0 := by
  induction pre with
  | nil => rfl
  | cons s pre ih => simp [pollTrace, countEvent_cons, ih]

theorem countEvent_pollTrace_statusCall (pre : List AnalysisStatus) :
    countEvent .statusCall (pollTrace pre) = pre.length := by
  induction pre with
  | nil => rfl
  | cons s pre ih => simp [pollTrace, countEvent_cons, ih, Nat.add_comm]

/-- Running the polling loop of `handleAnalysisStart` on non-terminal
responses followed by `rest` consumes the whole non-terminal prefix,
applying the status callback once per response, and then behaves as on
`rest`. -/
theorem pollStatusApp_nonterminal_consume (pre : List AnalysisStatus)
    (hpre : ∀ s ∈ pre, s.status.nonTerminal) (st : AppState)
    (rest : List StatusResponse) :
    pollStatusApp st (pre.map StatusResponse.ok ++ rest)
      = ((pollStatusApp (pre.foldl onPollStatusUpdate st) rest).1,
         pollTrace pre ++ (pollStatusApp (pre.foldl onPollStatusUpdate st) rest).2.1,
         (pollStatusApp (pre.foldl onPollStatusUpdate st) rest).2.2) := by
  induction pre generalizing st with
  | nil => simp [pollTrace]
  | cons s pre ih =>
    have hs := hpre s (by simp)
    have hrec := ih (fun x hx => hpre x (by simp [hx])) (onPollStatusUpdate st s)
    simp only [List.map_cons, List.cons_append, pollStatusApp, checkStatus,
      if_neg hs.1, if_neg hs.2, List.append_eq, hrec, pollTrace, List.foldl_cons]

/-- C10: if an analysis is already in progress, `handleAnalysisStart` and
`handleCodeAnalysis` return immediately with no effect — the state (logs,
results, status, request identifier, socket module) is unchanged and the
trace of issued adapter calls is empty. -/
theorem c10_guard_no_effect_when_analyzing (w : World) (o : UrlOracle)
    (fileName : Option String) (co : Except String CodeAnalysisResponse)
    (h : w.app.isAnalyzing = true) :
    handleAnalysisStart w o = (w, [], RunStatus.finished)
    ∧ handleCodeAnalysis w fileName co = (w, [], RunStatus.finished) := by
  constructor <;> simp [handleAnalysisStart, handleCodeAnalysis, h]

/-- C10 witness: a concrete busy world is left untouched by both
handlers. -/
theorem c10_guard_witness :
    handleAnalysisStart ⟨⟨[], [], true, none, none⟩, ⟨[], none⟩⟩
        ⟨SubmitResponse.ok "7", [], ResultsResponse.ok []⟩
      = (⟨⟨[], [], true, none, none⟩, ⟨[], none⟩⟩, [], RunStatus.finished)
    ∧ handleCodeAnalysis ⟨⟨[], [], true, none, none⟩, ⟨[], none⟩⟩ none
        (Except.ok ⟨true, "", none, [], [], 100, 0⟩)
      = (⟨⟨[], [], true, none, none⟩, ⟨[], none⟩⟩, [], RunStatus.finished) :=
  c10_guard_no_effect_when_analyzing ⟨⟨[], [], true, none, none⟩, ⟨[], none⟩⟩
    ⟨SubmitResponse.ok "7", [], ResultsResponse.ok []⟩ none
    (Except.ok ⟨true, "", none, [], [], 100, 0⟩) rfl

/-- C7: when the initial submit call is rejected, `startAnalysis` raises an
error carrying the backend's status code, status text and body; the session
moves directly to FAILED with an ERROR-level log entry recording that
message, the run finishes, and zero poll calls (and zero results calls) are
made. -/
theorem c7_submit_failure_no_poll (w : World) (o : UrlOracle) (code : Nat)
    (statusText body : String) (hbusy : w.app.isAnalyzing = false)
    (hsub : o.submitResp = SubmitResponse.httpError code statusText body) :
    startAnalysis o.submitResp
      = Except.error ("Помилка серверу: " ++ toString code ++ " " ++ statusText
          ++ ". " ++ body)
    ∧ (handleAnalysisStart w o).1.app.analysisStatus = some Status.FAILED
    ∧ (handleAnalysisStart w o).1.app.logs.getLast?
        = some ⟨Level.ERROR, "Помилка: " ++ ("Помилка серверу: " ++ toString code
            ++ " " ++ statusText ++ ". " ++ body)⟩
    ∧ (handleAnalysisStart w o).2.1 = [TraceEvent.submitCall]
    ∧ countEvent .statusCall (handleAnalysisStart w o).2.1 = 0
    ∧ countEvent .resultsCall (handleAnalysisStart w o).2.1 = 0
    ∧ (handleAnalysisStart w o).2.2 = RunStatus.finished := by
  refine ⟨by simp [hsub, startAnalysis], ?_⟩
  simp [handleAnalysisStart, hbusy, hsub, startAnalysis, appendLog,
    countEvent_cons, countEvent_nil]

/-- C7 witness: a concrete rejected submission (HTTP 500) fails the session
with no poll calls. -/
theorem c7_submit_failure_witness :
    (handleAnalysisStart ⟨⟨[], [], false, none, none⟩, ⟨[], none⟩⟩
        ⟨SubmitResponse.httpError 500 "Internal Server Error" "boom", [],
          ResultsResponse.ok []⟩).1.app.analysisStatus = some Status.FAILED
    ∧ (handleAnalysisStart ⟨⟨[], [], false, none, none⟩, ⟨[], none⟩⟩
        ⟨SubmitResponse.httpError 500 "Internal Server Error" "boom", [],
          ResultsResponse.ok []⟩).2.1 = [TraceEvent.submitCall] :=
  ⟨(c7_submit_failure_no_poll ⟨⟨[], [], false, none, none⟩, ⟨[], none⟩⟩
      ⟨SubmitResponse.httpError 500 "Internal Server Error" "boom", [],
        ResultsResponse.ok []⟩ 500 "Internal Server Error" "boom" rfl rfl).2.1,
   (c7_submit_failure_no_poll ⟨⟨[], [], false, none, none⟩, ⟨[], none⟩⟩
      ⟨SubmitResponse.httpError 500 "Internal Server Error" "boom", [],
        ResultsResponse.ok []⟩ 500 "Internal Server Error" "boom" rfl rfl).2.2.2.1⟩

/-- C2: for every sequence of poll responses whose first terminal status is
COMPLETED (and is last in the consumed sequence), the session flow calls
`fetchResults` exactly once, and only after the COMPLETED status has been
observed by the status callback; for every sequence whose first terminal
status is FAILED, `fetchResults` is never called. -/
theorem c2_fetchResults_once_after_completed (w : World) (o : UrlOracle)
    (rid : String) (pre : List AnalysisStatus) (t : AnalysisStatus)
    (hbusy : w.app.isAnalyzing = false)
    (hsub : o.submitResp = SubmitResponse.ok rid)
    (hresp : o.statusResps = pre.map StatusResponse.ok ++ [StatusResponse.ok t])
    (hpre : ∀ s ∈ pre, s.status.nonTerminal) :
    (t.status = Status.COMPLETED →
      countEvent .resultsCall (handleAnalysisStart w o).2.1 = 1
      ∧ ∃ l₁ l₂, (handleAnalysisStart w o).2.1
            = l₁ ++ TraceEvent.statusObserved t :: l₂
          ∧ countEvent .resultsCall l₁ = 0)
    ∧ (t.status = Status.FAILED →
      countEvent .resultsCall (handleAnalysisStart w o).2.1 = 0) := by
  obtain ⟨sr, resps, rr⟩ := o
  dsimp only at hsub hresp
  subst hsub; subst hresp
  constructor
  · intro ht
    have htr : (handleAnalysisStart w
        ⟨SubmitResponse.ok rid, pre.map StatusResponse.ok ++ [StatusResponse.ok t], rr⟩).2.1
        = TraceEvent.submitCall :: TraceEvent.channelConnect rid
            :: ((pollTrace pre ++ [TraceEvent.statusCall, TraceEvent.statusObserved t])
              ++ [TraceEvent.resultsCall]) := by
      cases rr <;>
        simp [handleAnalysisStart, hbusy, startAnalysis,
          pollStatusApp_nonterminal_consume pre hpre, pollStatusApp, checkStatus,
          ht, fetchResults]
    refine ⟨?_, TraceEvent.submitCall :: TraceEvent.channelConnect rid
        :: (pollTrace pre ++ [TraceEvent.statusCall]), [TraceEvent.resultsCall], ?_, ?_⟩
    · rw [htr]
      simp [countEvent_cons, countEvent_append, countEvent_pollTrace_resultsCall,
        countEvent_nil]
    · rw [htr]
      simp
    · simp [countEvent_cons, countEvent_append, countEvent_pollTrace_resultsCall,
        countEvent_nil]
  · intro ht
    have hne : t.status ≠ Status.COMPLETED := by simp [ht]
    have htr : (handleAnalysisStart w
        ⟨SubmitResponse.ok rid, pre.map StatusResponse.ok ++ [StatusResponse.ok t], rr⟩).2.1
        = TraceEvent.submitCall :: TraceEvent.channelConnect rid
            :: (pollTrace pre ++ [TraceEvent.statusCall, TraceEvent.statusObserved t]) := by
      simp [handleAnalysisStart, hbusy, startAnalysis,
        pollStatusApp_nonterminal_consume pre hpre, pollStatusApp, checkStatus,
        hne, ht]
    rw [htr]
    simp [countEvent_cons, countEvent_append, countEvent_pollTrace_resultsCall,
      countEvent_nil]

/-- C2 witness: responses PENDING then COMPLETED lead to exactly one
results call, issued after the COMPLETED observation. -/
theorem c2_fetchResults_witness :
    countEvent .resultsCall
      (handleAnalysisStart ⟨⟨[], [], false, none, none⟩, ⟨[], none⟩⟩
        ⟨SubmitResponse.ok "9",
          [StatusResponse.ok ⟨9, Status.PENDING, none, "t"⟩,
           StatusResponse.ok ⟨9, Status.COMPLETED, none, "t"⟩],
          ResultsResponse.ok []⟩).2.1 = 1 :=
  ((c2_fetchResults_once_after_completed ⟨⟨[], [], false, none, none⟩, ⟨[], none⟩⟩
    ⟨SubmitResponse.ok "9",
      [StatusResponse.ok ⟨9, Status.PENDING, none, "t"⟩,
       StatusResponse.ok ⟨9, Status.COMPLETED, none, "t"⟩],
      ResultsResponse.ok []⟩ "9" [⟨9, Status.PENDING, none, "t"⟩]
    ⟨9, Status.COMPLETED, none, "t"⟩ rfl rfl rfl
    (by intro s hs; simp only [List.mem_singleton] at hs; subst hs
        exact ⟨by decide, by decide⟩)).1 rfl).1

/-- C6: a single status-check failure is session-fatal with no automatic
retry: `checkStatus` on a non-ok response raises
`'Не вдалося отримати статус аналізу.'`, the polling loop stops at that
failure having made exactly one status call per response (no retry), no
results call is made, and the session finishes FAILED with an ERROR-level
log entry recording the message. -/
theorem c6_status_failure_fatal (w : World) (o : UrlOracle) (rid : String)
    (pre : List AnalysisStatus) (hbusy : w.app.isAnalyzing = false)
    (hsub : o.submitResp = SubmitResponse.ok rid)
    (hresp : o.statusResps = pre.map StatusResponse.ok ++ [StatusResponse.httpError])
    (hpre : ∀ s ∈ pre, s.status.nonTerminal) :
    checkStatus StatusResponse.httpError
      = Except.error "Не вдалося отримати статус аналізу."
    ∧ countEvent .statusCall (handleAnalysisStart w o).2.1 = pre.length + 1
    ∧ countEvent .resultsCall (handleAnalysisStart w o).2.1 = 0
    ∧ (handleAnalysisStart w o).2.2 = RunStatus.finished
    ∧ (handleAnalysisStart w o).1.app.analysisStatus = some Status.FAILED
    ∧ (handleAnalysisStart w o).1.app.logs.getLast?
        = some ⟨Level.ERROR, "Помилка: Не вдалося отримати статус аналізу."⟩ := by
  obtain ⟨sr, resps, rr⟩ := o
  dsimp only at hsub hresp
  subst hsub; subst hresp
  have hmsg : "Помилка: " ++ "Не вдалося отримати статус аналізу."
      = "Помилка: Не вдалося отримати статус аналізу." := rfl
  refine ⟨rfl, ?_, ?_, ?_, ?_, ?_⟩ <;>
    simp [handleAnalysisStart, hbusy, startAnalysis,
      pollStatusApp_nonterminal_consume pre hpre, pollStatusApp, checkStatus,
      appendLog, countEvent_cons, countEvent_append,
      countEvent_pollTrace_resultsCall, countEvent_pollTrace_statusCall,
      countEvent_nil, List.getLast?_concat, hmsg]

/-- C6 witness: a CLONING response followed by a failing status check ends
the session FAILED after exactly two status calls. -/
theorem c6_status_failure_witness :
    countEvent .statusCall
      (handleAnalysisStart ⟨⟨[], [], false, none, none⟩, ⟨[], none⟩⟩
        ⟨SubmitResponse.ok "5",
          [StatusResponse.ok ⟨5, Status.CLONING, none, "t"⟩,
           StatusResponse.httpError],
          ResultsResponse.ok []⟩).2.1 = 2
    ∧ (handleAnalysisStart ⟨⟨[], [], false, none, none⟩, ⟨[], none⟩⟩
        ⟨SubmitResponse.ok "5",
          [StatusResponse.ok ⟨5, Status.CLONING, none, "t"⟩,
           StatusResponse.httpError],
          ResultsResponse.ok []⟩).1.app.analysisStatus = some Status.FAILED :=
  ⟨(c6_status_failure_fatal ⟨⟨[], [], false, none, none⟩, ⟨[], none⟩⟩
      ⟨SubmitResponse.ok "5",
        [StatusResponse.ok ⟨5, Status.CLONING, none, "t"⟩, StatusResponse.httpError],
        ResultsResponse.ok []⟩ "5" [⟨5, Status.CLONING, none, "t"⟩] rfl rfl rfl
      (by intro s hs; simp only [List.mem_singleton] at hs; subst hs
          exact ⟨by decide, by decide⟩)).2.1,
   (c6_status_failure_fatal ⟨⟨[], [], false, none, none⟩, ⟨[], none⟩⟩
      ⟨SubmitResponse.ok "5",
        [StatusResponse.ok ⟨5, Status.CLONING, none, "t"⟩, StatusResponse.httpError],
        ResultsResponse.ok []⟩ "5" [⟨5, Status.CLONING, none, "t"⟩] rfl rfl rfl
      (by intro s hs; simp only [List.mem_singleton] at hs; subst hs
          exact ⟨by decide, by decide⟩)).2.2.2.2.1⟩

theorem appendLog_logs (st : AppState) (e : LogEntry) :
    (appendLog st e).logs = st.logs ++ [e] := rfl

theorem appendLog_results (st : AppState) (e : LogEntry) :
    (appendLog st e).results = st.results := rfl

theorem appendLog_isAnalyzing (st : AppState) (e : LogEntry) :
    (appendLog st e).isAnalyzing = st.isAnalyzing := rfl

theorem appendLog_currentRequestId (st : AppState) (e : LogEntry) :
    (appendLog st e).currentRequestId = st.currentRequestId := rfl

theorem appendLog_analysisStatus (st : AppState) (e : LogEntry) :
    (appendLog st e).analysisStatus = st.analysisStatus := rfl

theorem foldl_compErr_state (es : List CompilationError) (b : AppState) :
    es.foldl (fun acc err => appendLog acc (compErrEntry err)) b
      = { b with logs := b.logs ++ es.map compErrEntry } := by
  induction es generalizing b with
  | nil => simp
  | cons e es ih =>
    rw [List.foldl_cons, ih]
    simp [appendLog, List.append_assoc]

theorem assignIdsFrom_length (n : Nat) (vs : List CodeViolation) :
    (assignIdsFrom n vs).length = vs.length := by
  induction vs generalizing n with
  | nil => rfl
  | cons v vs ih => simp [assignIdsFrom, ih]

theorem assignIdsFrom_getElem? (n k : Nat) (vs : List CodeViolation) :
    (assignIdsFrom n vs)[k]?
      = (vs[k]?).map
          (fun v => ⟨n + k, v.filePath, v.lineNumber, v.severity, v.message⟩) := by
  induction vs generalizing n k with
  | nil => simp [assignIdsFrom]
  | cons v vs ih =>
    cases k with
    | zero => simp [assignIdsFrom]
    | succ k =>
      simp [assignIdsFrom, ih (n + 1) k, Nat.add_assoc, Nat.add_comm 1 k]

/-- C8: an inline-code submission reaches a terminal state synchronously:
the run always finishes, its only adapter call is the `analyzeCode` call
(no polling, no channel — the socket module state is untouched) and it
records no session identifier; on success the state becomes COMPLETED with
the violations list populated in backend order, each entry's id equal to
its index, and a quality-score log line; on a reported failure it becomes
FAILED. -/
theorem c8_inline_code_synchronous (w : World) (fileName : Option String)
    (r : CodeAnalysisResponse) (hbusy : w.app.isAnalyzing = false) :
    (handleCodeAnalysis w fileName (Except.ok r)).2.2 = RunStatus.finished
    ∧ (handleCodeAnalysis w fileName (Except.ok r)).2.1 = [TraceEvent.analyzeCodeCall]
    ∧ (handleCodeAnalysis w fileName (Except.ok r)).1.sock = w.sock
    ∧ (handleCodeAnalysis w fileName (Except.ok r)).1.app.currentRequestId
        = w.app.currentRequestId
    ∧ (r.success = true →
        (handleCodeAnalysis w fileName (Except.ok r)).1.app.analysisStatus
            = some Status.COMPLETED
        ∧ (handleCodeAnalysis w fileName (Except.ok r)).1.app.results.length
            = r.violations.length
        ∧ (∀ k v, r.violations[k]? = some v →
            (handleCodeAnalysis w fileName (Except.ok r)).1.app.results[k]?
              = some (AnalysisResult.mk k v.filePath v.lineNumber v.severity v.message))
        ∧ (⟨Level.INFO, scoreEmoji r.qualityScore ++ " Оцінка якості коду: "
              ++ toString r.qualityScore ++ "/100"⟩ : LogEntry)
            ∈ (handleCodeAnalysis w fileName (Except.ok r)).1.app.logs)
    ∧ (r.success = false →
        (handleCodeAnalysis w fileName (Except.ok r)).1.app.analysisStatus
            = some Status.FAILED) := by
  obtain ⟨succ, em, cs, ce, vs, q, vc⟩ := r
  refine ⟨?_, ?_, ?_, ?_, ?_, ?_⟩
  · cases succ <;> cases fileName <;> rcases cs with _ | b <;> (try cases b) <;>
      simp [handleCodeAnalysis, hbusy, foldl_compErr_state, appendLog_logs,
        appendLog_results, appendLog_isAnalyzing, appendLog_currentRequestId,
        appendLog_analysisStatus]
  · cases succ <;> cases fileName <;> rcases cs with _ | b <;> (try cases b) <;>
      simp [handleCodeAnalysis, hbusy, foldl_compErr_state, appendLog_logs,
        appendLog_results, appendLog_isAnalyzing, appendLog_currentRequestId,
        appendLog_analysisStatus]
  · cases succ <;> cases fileName <;> rcases cs with _ | b <;> (try cases b) <;>
      simp [handleCodeAnalysis, hbusy, foldl_compErr_state, appendLog_logs,
        appendLog_results, appendLog_isAnalyzing, appendLog_currentRequestId,
        appendLog_analysisStatus]
  · cases succ <;> cases fileName <;> rcases cs with _ | b <;> (try cases b) <;>
      simp [handleCodeAnalysis, hbusy, foldl_compErr_state, appendLog_logs,
        appendLog_results, appendLog_isAnalyzing, appendLog_currentRequestId,
        appendLog_analysisStatus]
  · intro hs
    dsimp only at hs
    subst hs
    refine ⟨?_, ?_, ?_, ?_⟩
    · cases fileName <;> rcases cs with _ | b <;> (try cases b) <;>
        simp [handleCodeAnalysis, hbusy, foldl_compErr_state, appendLog_logs,
        appendLog_results, appendLog_isAnalyzing, appendLog_currentRequestId,
        appendLog_analysisStatus]
    · cases fileName <;> rcases cs with _ | b <;> (try cases b) <;>
        simp [handleCodeAnalysis, hbusy, foldl_compErr_state, appendLog_logs,
          appendLog_results, appendLog_isAnalyzing, appendLog_currentRequestId,
          appendLog_analysisStatus, assignIdsFrom_length]
    · intro k v hv
      cases fileName <;> rcases cs with _ | b <;> (try cases b) <;>
        simp [handleCodeAnalysis, hbusy, foldl_compErr_state, appendLog_logs,
          appendLog_results, appendLog_isAnalyzing, appendLog_currentRequestId,
          appendLog_analysisStatus, assignIdsFrom_getElem?, hv]
    · cases fileName <;> rcases cs with _ | b <;> (try cases b) <;>
        simp [handleCodeAnalysis, hbusy, foldl_compErr_state, appendLog_logs,
        appendLog_results, appendLog_isAnalyzing, appendLog_currentRequestId,
        appendLog_analysisStatus]
  · intro hs
    dsimp only at hs
    subst hs
    cases fileName <;> rcases cs with _ | b <;> (try cases b) <;>
      simp [handleCodeAnalysis, hbusy, foldl_compErr_state, appendLog_logs,
        appendLog_results, appendLog_isAnalyzing, appendLog_currentRequestId,
        appendLog_analysisStatus]

/-- C8 witness: a concrete successful inline-code run with two violations
ends COMPLETED, with ids 0 and 1 assigned in order and no channel
opened. -/
theorem c8_inline_code_witness :
    (handleCodeAnalysis ⟨⟨[], [], false, none, none⟩, ⟨[], none⟩⟩ none
        (Except.ok ⟨true, "", some true, [], [⟨"A.java", 3, "WARNING", "w"⟩,
          ⟨"B.java", 7, "ERROR", "e"⟩], 90, 2⟩)).1.app.analysisStatus
      = some Status.COMPLETED
    ∧ (handleCodeAnalysis ⟨⟨[], [], false, none, none⟩, ⟨[], none⟩⟩ none
        (Except.ok ⟨true, "", some true, [], [⟨"A.java", 3, "WARNING", "w"⟩,
          ⟨"B.java", 7, "ERROR", "e"⟩], 90, 2⟩)).1.app.results[1]?
      = some ⟨1, "B.java", 7, "ERROR", "e"⟩ :=
  ⟨((c8_inline_code_synchronous ⟨⟨[], [], false, none, none⟩, ⟨[], none⟩⟩ none
      ⟨true, "", some true, [], [⟨"A.java", 3, "WARNING", "w"⟩,
        ⟨"B.java", 7, "ERROR", "e"⟩], 90, 2⟩ rfl).2.2.2.2.1 rfl).1,
   ((c8_inline_code_synchronous ⟨⟨[], [], false, none, none⟩, ⟨[], none⟩⟩ none
      ⟨true, "", some true, [], [⟨"A.java", 3, "WARNING", "w"⟩,
        ⟨"B.java", 7, "ERROR", "e"⟩], 90, 2⟩ rfl).2.2.2.2.1 rfl).2.2.1 1
      ⟨"B.java", 7, "ERROR", "e"⟩ rfl⟩

/-- Appending a status line twice in a row adds it at most once: the second
update sees it as the last entry and suppresses it. -/
theorem statusLogUpdate_idem (l : List LogEntry) (m : String) :
    statusLogUpdate (statusLogUpdate l m) m = statusLogUpdate l m := by
  cases h : l.getLast? with
  | none => simp [statusLogUpdate, h, List.getLast?_concat]
  | some last =>
    by_cases hm : last.message = m <;>
      simp [statusLogUpdate, h, hm, List.getLast?_concat]

/-- One status update appends at most one entry. -/
theorem statusLogUpdate_append (l : List LogEntry) (m : String) :
    ∃ added, statusLogUpdate l m = l ++ added ∧ added.length ≤ 1 := by
  cases h : l.getLast? with
  | none => exact ⟨[⟨.INFO, m⟩], by simp [statusLogUpdate, h], by simp⟩
  | some last =>
    by_cases hm : last.message = m
    · exact ⟨[], by simp [statusLogUpdate, h, hm], by simp⟩
    · exact ⟨[⟨.INFO, m⟩], by simp [statusLogUpdate, h, hm], by simp⟩

/-- After any entry with a different message, the status line is appended
again — the comparison looks only at the last entry, never at the rest of
the history. -/
theorem statusLogUpdate_concat_ne (l : List LogEntry) (e : LogEntry)
    (m : String) (he : e.message ≠ m) :
    statusLogUpdate (l ++ [e]) m = (l ++ [e]) ++ [⟨.INFO, m⟩] := by
  simp [statusLogUpdate, List.getLast?_concat, he]

/-- C5: two consecutive poll responses with identical status append at most
one status log line — the second callback run leaves the state exactly as
the first left it — and the suppression compares the candidate line only
against the immediately preceding log entry: after any interleaved entry
with a different message (for example a channel message), the same status
line is appended again, even though it already occurs earlier in the
history. -/
theorem c5_duplicate_suppression_last_entry_only (st : AppState)
    (s₁ s₂ : AnalysisStatus) (hs : s₁.status = s₂.status) (e : LogEntry)
    (he : e.message ≠ getStatusMessage s₂.status) :
    onPollStatusUpdate (onPollStatusUpdate st s₁) s₂ = onPollStatusUpdate st s₁
    ∧ (∃ added, (onPollStatusUpdate st s₁).logs = st.logs ++ added
        ∧ added.length ≤ 1)
    ∧ statusLogUpdate ((onPollStatusUpdate st s₁).logs ++ [e])
          (getStatusMessage s₂.status)
        = ((onPollStatusUpdate st s₁).logs ++ [e])
            ++ [⟨Level.INFO, getStatusMessage s₂.status⟩] := by
  refine ⟨?_, ?_, ?_⟩
  · simp [onPollStatusUpdate, ← hs, statusLogUpdate_idem]
  · exact statusLogUpdate_append st.logs (getStatusMessage s₁.status)
  · exact statusLogUpdate_concat_ne _ e _ he

/-- C5 witness: two ANALYZING responses in a row yield one status line; the
same status reappearing after an interleaved channel message is logged
again. -/
theorem c5_duplicate_suppression_witness :
    onPollStatusUpdate (onPollStatusUpdate ⟨[], [], true, some "1", none⟩
        ⟨1, Status.ANALYZING, none, "t"⟩) ⟨1, Status.ANALYZING, none, "u"⟩
      = onPollStatusUpdate ⟨[], [], true, some "1", none⟩
          ⟨1, Status.ANALYZING, none, "t"⟩ :=
  (c5_duplicate_suppression_last_entry_only ⟨[], [], true, some "1", none⟩
    ⟨1, Status.ANALYZING, none, "t"⟩ ⟨1, Status.ANALYZING, none, "u"⟩ rfl
    ⟨Level.INFO, "x"⟩ (by decide)).1

/-- Looking up a client after `deactivateAt`: the targeted index is the
same client with `active := false`. -/
theorem deactivateAt_getElem?_self (cs : List ChannelClient) (j : Nat) :
    (deactivateAt cs j)[j]? = (cs[j]?).map (fun c => ⟨c.requestId, false⟩) := by
  induction cs generalizing j with
  | nil => simp [deactivateAt]
  | cons c cs ih =>
    cases j with
    | zero => simp [deactivateAt]
    | succ j => simp [deactivateAt, ih]

/-- Deliveries to a deactivated (or non-existent) client change nothing and
emit no signals. -/
theorem deliverAll_inactive (w : World) (i : Nat) (es : List LogEntry)
    (h : clientActive w.sock i = false) : deliverAll w i es = (w, []) := by
  induction es with
  | nil => rfl
  | cons e es ih => simp [deliverAll, deliver, h, ih]

/-- C4: a real-time channel message whose level is ERROR or whose text
begins with the completion marker sentence triggers exactly one completion
signal and exactly one channel-close call, even if further messages arrive
afterward — the close deactivates the client, so later deliveries are
no-ops; and the arrival of a channel log message by itself never changes
the session status or the results, it only appends to the log sequence. -/
theorem c4_channel_completion_idempotent (w : World) (i : Nat)
    (c : ChannelClient) (hcur : w.sock.current = some i)
    (hcl : w.sock.clients[i]? = some c) (hact : c.active = true)
    (pre post : List LogEntry) (t : LogEntry)
    (hpre : ∀ e ∈ pre, channelTerminal e = false)
    (ht : channelTerminal t = true) :
    (deliverAll w i (pre ++ t :: post)).2
      = [SignalEvent.completionSignal, SignalEvent.closeCall]
    ∧ (∀ (w' : World) (j : Nat) (e : LogEntry),
        (deliver w' j e).1.app.analysisStatus = w'.app.analysisStatus
        ∧ (deliver w' j e).1.app.results = w'.app.results
        ∧ ∃ suffix, (deliver w' j e).1.app.logs = w'.app.logs ++ suffix) := by
  constructor
  · induction pre generalizing w with
    | nil =>
      have hacti : clientActive w.sock i = true := by
        simp [clientActive, hcl, hact]
      have hinact :
          clientActive (disconnectWebSocket w.sock) i = false := by
        simp [disconnectWebSocket, hcur, clientActive,
          deactivateAt_getElem?_self, hcl]
      simp [deliverAll, deliver, hacti, ht, hinact, deliverAll_inactive]
    | cons e pre ih =>
      have hacti : clientActive w.sock i = true := by
        simp [clientActive, hcl, hact]
      have he := hpre e (by simp)
      have hrec := ih ⟨appendLog w.app e, w.sock⟩ hcur hcl
        (fun x hx => hpre x (by simp [hx]))
      simp [deliverAll, deliver, hacti, he, hrec]
  · intro w' j e
    by_cases h1 : clientActive w'.sock j = true
    · by_cases h2 : channelTerminal e = true
      · exact ⟨by simp [deliver, h1, h2, appendLog],
          by simp [deliver, h1, h2, appendLog],
          [e, ⟨Level.INFO, "З'єднання WebSocket закрито."⟩],
          by simp [deliver, h1, h2, appendLog]⟩
      · exact ⟨by simp [deliver, h1, h2, appendLog],
          by simp [deliver, h1, h2, appendLog],
          [e], by simp [deliver, h1, h2, appendLog]⟩
    · exact ⟨by simp [deliver, h1], by simp [deliver, h1],
        [], by simp [deliver, h1]⟩

/-- C4 witness: on a freshly connected channel, an ERROR message followed
by a further message produces exactly one completion signal and one close
call. -/
theorem c4_channel_completion_witness :
    (deliverAll ⟨⟨[], [], true, some "1", none⟩,
        ⟨[⟨"1", true⟩], some 0⟩⟩ 0
      [⟨Level.ERROR, "boom"⟩, ⟨Level.INFO, "late"⟩]).2
      = [SignalEvent.completionSignal, SignalEvent.closeCall] :=
  (c4_channel_completion_idempotent ⟨⟨[], [], true, some "1", none⟩,
      ⟨[⟨"1", true⟩], some 0⟩⟩ 0 ⟨"1", true⟩ rfl rfl rfl
    [] [⟨Level.INFO, "late"⟩] ⟨Level.ERROR, "boom"⟩ (by simp) (by decide)).1

/-- C3 (amended): starting a new session performs no teardown of the
previous session's real-time channel — `handleAnalysisStart` never
deactivates an existing client, it at most appends a new one — and
overlapping sessions are prevented only by the `isAnalyzing` guard, which
ignores a new start while a session is running instead of halting the old
loop. -/
theorem c3_no_teardown_guard_only (w : World) (o : UrlOracle) :
    (w.app.isAnalyzing = true →
      handleAnalysisStart w o = (w, [], RunStatus.finished))
    ∧ (∀ (j : Nat) (c : ChannelClient), w.sock.clients[j]? = some c →
        (handleAnalysisStart w o).1.sock.clients[j]? = some c) := by
  constructor
  · intro h
    simp [handleAnalysisStart, h]
  · intro j c hc
    cases hb : w.app.isAnalyzing with
    | true => simp [handleAnalysisStart, hb, hc]
    | false =>
      have hj : j < w.sock.clients.length := by
        by_contra hlen
        rw [List.getElem?_eq_none (by omega)] at hc
        cases hc
      obtain ⟨sr, resps, rr⟩ := o
      cases sr with
      | httpError code statusText body =>
        simp [handleAnalysisStart, hb, startAnalysis, hc]
      | ok rid =>
        have hconn : ∀ ss : SocketState, ss.clients[j]? = some c →
            (connectWebSocket ss rid).clients[j]? = some c := by
          intro ss hss
          have : j < ss.clients.length := by
            by_contra hlen
            rw [List.getElem?_eq_none (by omega)] at hss
            cases hss
          simp [connectWebSocket, List.getElem?_append, this, hss]
        cases rr <;>
          (simp only [handleAnalysisStart, hb, startAnalysis,
            Bool.false_eq_true, if_false]
           split <;> (try split) <;> simp [hconn w.sock hc])

/-- C3 witness: with one previously created client on record, starting a
busy session is a no-op, and starting a fresh session leaves that client
untouched (still active). -/
theorem c3_no_teardown_witness :
    (handleAnalysisStart ⟨⟨[], [], false, none, none⟩, ⟨[⟨"1", true⟩], some 0⟩⟩
      ⟨SubmitResponse.ok "2", [], ResultsResponse.ok []⟩).1.sock.clients[0]?
      = some ⟨"1", true⟩ :=
  (c3_no_teardown_guard_only ⟨⟨[], [], false, none, none⟩, ⟨[⟨"1", true⟩], some 0⟩⟩
    ⟨SubmitResponse.ok "2", [], ResultsResponse.ok []⟩).2 0 ⟨"1", true⟩ rfl

/-- The fresh world before any session. -/
def c3World0 : World := ⟨⟨[], [], false, none, none⟩, ⟨[], none⟩⟩

/-- Session A: submission succeeds with id "1", one COMPLETED poll, empty
results — the run finishes with its channel client still active, since the
channel never received a completion message. -/
def c3OracleA : UrlOracle :=
  ⟨SubmitResponse.ok "1", [StatusResponse.ok ⟨1, Status.COMPLETED, none, "t"⟩],
    ResultsResponse.ok []⟩

/-- The world after session A has finished. -/
def c3WorldA : World := (handleAnalysisStart c3World0 c3OracleA).1

/-- Session B: submission succeeds with id "2"; its first poll response is
non-terminal, so B is mid-poll after its Submitting state began. -/
def c3OracleB : UrlOracle :=
  ⟨SubmitResponse.ok "2", [StatusResponse.ok ⟨2, Status.PENDING, none, "t"⟩],
    ResultsResponse.ok []⟩

/-- The world after session B has started (still polling). -/
def c3WorldB : World := (handleAnalysisStart c3WorldA c3OracleB).1

/-- A log message of session A's backend job, delivered on session A's
still-open channel topic. -/
def c3OldMessage : LogEntry := ⟨Level.INFO, "still cloning"⟩

/-- C3 counterexample: session A finishes with its channel still open
(no completion message ever arrived on it); starting session B does not
tear that channel down — client 0, session A's channel, is still active
after B's Submitting state began — and a message delivered on A's topic is
appended to the log sequence during session B. -/
theorem c3_counterexample_no_channel_teardown :
    c3WorldA.app.isAnalyzing = false
    ∧ c3WorldA.sock.clients[0]? = some ⟨"1", true⟩
    ∧ c3WorldB.app.currentRequestId = some "2"
    ∧ c3WorldB.sock.clients[0]? = some ⟨"1", true⟩
    ∧ (deliver c3WorldB 0 c3OldMessage).1.app.logs
        = c3WorldB.app.logs ++ [c3OldMessage] := by
  refine ⟨rfl, rfl, rfl, rfl, rfl⟩

end Checkstyle
